import Mathlib

/-!
Verification of `music21/sorting.py` (`SortTuple`).

We shallowly embed the Python module: numeric values become `PyNum`
(an extended rational with a NaN point, matching IEEE float / Fraction
behaviour for the operations the module uses), a `SortTuple` becomes a
six-field structure, and each dunder method becomes a Lean function.
Comparison methods can return `NotImplemented` or raise `TypeError`, so
they return a `CmpResult`.
-/

namespace Sorting

/-- A Python numeric value as used by `sorting.py`: NaN, negative
infinity, a finite value (modelled as a rational, covering ints, floats
and Fractions), or positive infinity. -/
inductive PyNum where
  | nan : PyNum
  | ninf : PyNum
  | fin : ℚ → PyNum
  | pinf : PyNum
deriving DecidableEq, Repr

/-- Python `==` on numbers: NaN is equal to nothing, infinities compare
by kind, finite values by value. -/
def pyEq : PyNum → PyNum → Bool
  | .nan, _ => false
  | _, .nan => false
  | .ninf, .ninf => true
  | .ninf, _ => false
  | _, .ninf => false
  | .pinf, .pinf => true
  | .pinf, _ => false
  | _, .pinf => false
  | .fin a, .fin b => a = b

/-- Python `<` on numbers: any comparison with NaN is false. -/
def pyLt : PyNum → PyNum → Bool
  | .nan, _ => false
  | _, .nan => false
  | .ninf, .ninf => false
  | .ninf, _ => true
  | _, .ninf => false
  | .pinf, _ => false
  | .fin _, .pinf => true
  | .fin a, .fin b => a < b

/-- Python `>` on numbers: `a > b` holds exactly when `b < a`. -/
def pyGt (a b : PyNum) : Bool := pyLt b a

/-- Python `+` on numbers: NaN propagates and opposite infinities give
NaN, as for IEEE floats. -/
def pyAdd : PyNum → PyNum → PyNum
  | .nan, _ => .nan
  | _, .nan => .nan
  | .ninf, .pinf => .nan
  | .pinf, .ninf => .nan
  | .ninf, _ => .ninf
  | _, .ninf => .ninf
  | .pinf, _ => .pinf
  | _, .pinf => .pinf
  | .fin a, .fin b => .fin (a + b)

/-- Python unary minus on numbers. -/
def pyNeg : PyNum → PyNum
  | .nan => .nan
  | .ninf => .pinf
  | .pinf => .ninf
  | .fin a => .fin (-a)

/-- Python `-` on numbers. -/
def pySub (a b : PyNum) : PyNum := pyAdd a (pyNeg b)

/-- Python `max(a, b)`: returns `b` if `b > a`, else `a`. -/
def pyMax (a b : PyNum) : PyNum := if pyGt b a then b else a

/-- Python `min(a, b)`: returns `b` if `b < a`, else `a`. -/
def pyMin (a b : PyNum) : PyNum := if pyLt b a then b else a

/-- The six-field named tuple of `sorting.py`. Field order is the
declaration order `atEnd, offset, priority, classSortOrder, isNotGrace,
insertIndex`. -/
structure SortTuple where
  atEnd : PyNum
  offset : PyNum
  priority : PyNum
  classSortOrder : PyNum
  isNotGrace : PyNum
  insertIndex : PyNum
deriving DecidableEq, Repr

/-- The underlying tuple of a `SortTuple`, in declared field order. -/
def SortTuple.toList (s : SortTuple) : List PyNum :=
  [s.atEnd, s.offset, s.priority, s.classSortOrder, s.isNotGrace, s.insertIndex]

/-- Python tuple `==`: same length and element-wise `==`. -/
def listPyEq : List PyNum → List PyNum → Bool
  | [], [] => true
  | [], _ :: _ => false
  | _ :: _, [] => false
  | a :: as, b :: bs => pyEq a b && listPyEq as bs

/-- Python tuple `<`: skip equal prefixes, compare the first unequal
pair with `<`; a proper prefix is smaller. -/
def listPyLt : List PyNum → List PyNum → Bool
  | [], [] => false
  | [], _ :: _ => true
  | _ :: _, [] => false
  | a :: as, b :: bs => if pyEq a b then listPyLt as bs else pyLt a b

/-- Python tuple `>`: skip equal prefixes, compare the first unequal
pair with `>`; a proper extension is greater. -/
def listPyGt : List PyNum → List PyNum → Bool
  | [], [] => false
  | [], _ :: _ => false
  | _ :: _, [] => true
  | a :: as, b :: bs => if pyEq a b then listPyGt as bs else pyGt a b

/-- A non-tuple right operand of a comparison: a number, a string, or
Python `None`. -/
inductive Scalar where
  | num : PyNum → Scalar
  | str : String → Scalar
  | none : Scalar
deriving DecidableEq, Repr

/-- A right operand of a `SortTuple` comparison: another `SortTuple`, a
plain tuple of numbers, or a scalar. -/
inductive Operand where
  | st : SortTuple → Operand
  | tup : List PyNum → Operand
  | sc : Scalar → Operand
deriving DecidableEq, Repr

/-- Outcome of a Python comparison method: a boolean, the
`NotImplemented` sentinel, or a raised `TypeError`. -/
inductive CmpResult where
  | bool : Bool → CmpResult
  | notImplemented : CmpResult
  | typeError : CmpResult
deriving DecidableEq, Repr

/-- Python `other != INFINITY` for a scalar operand: numeric inequality
for numbers; `True` for strings and `None` (no error is raised). -/
def scNeInf : Scalar → Bool
  | .num y => !(pyEq y .pinf)
  | .str _ => true
  | .none => true

/-- Python `x == other` for a number `x` and a scalar operand: numeric
equality for numbers; `False` for strings and `None` (no error). -/
def scEqNum (x : PyNum) : Scalar → Bool
  | .num y => pyEq x y
  | .str _ => false
  | .none => false

/-- `SortTuple.__eq__`. Tuples take the inherited element-wise path;
otherwise the at-end/offset scalar logic runs. For number, string and
`None` operands the body never raises `ValueError`, so the
`except ValueError: return NotImplemented` branch is unreachable here
and every case returns a boolean. -/
def SortTuple.eqPy (s : SortTuple) : Operand → CmpResult
  | .st t => .bool (listPyEq s.toList t.toList)
  | .tup l => .bool (listPyEq s.toList l)
  | .sc c =>
    if pyEq s.atEnd (.fin 1) && scNeInf c then .bool false
    else if pyEq s.atEnd (.fin 1) then .bool true
    else .bool (scEqNum s.offset c)

/-- `SortTuple.__lt__`. Tuples take the inherited element-wise path; for
scalars, at-end keys return `False`, otherwise `self.offset < other`
runs: a number compares numerically, while a string or `None` raises
`TypeError` — which the `except ValueError` clause does not catch. -/
def SortTuple.ltPy (s : SortTuple) : Operand → CmpResult
  | .st t => .bool (listPyLt s.toList t.toList)
  | .tup l => .bool (listPyLt s.toList l)
  | .sc c =>
    if pyEq s.atEnd (.fin 1) then .bool false
    else
      match c with
      | .num y => .bool (pyLt s.offset y)
      | .str _ => .typeError
      | .none => .typeError

/-- `SortTuple.__gt__`. Tuples take the inherited element-wise path; for
scalars, at-end keys return `True` unless the operand equals positive
infinity, otherwise `self.offset > other` runs: a number compares
numerically, while a string or `None` raises `TypeError` — which the
`except ValueError` clause does not catch. -/
def SortTuple.gtPy (s : SortTuple) : Operand → CmpResult
  | .st t => .bool (listPyGt s.toList t.toList)
  | .tup l => .bool (listPyGt s.toList l)
  | .sc c =>
    if pyEq s.atEnd (.fin 1) && scNeInf c then .bool true
    else if pyEq s.atEnd (.fin 1) then .bool false
    else
      match c with
      | .num y => .bool (pyGt s.offset y)
      | .str _ => .typeError
      | .none => .typeError

/-- `SortTuple.__ne__`: `not self.__eq__(other)`. Python `not` maps the
truthy `NotImplemented` sentinel to `False`; a raised error
propagates. -/
def SortTuple.nePy (s : SortTuple) (other : Operand) : CmpResult :=
  match s.eqPy other with
  | .bool b => .bool (!b)
  | .notImplemented => .bool false
  | .typeError => .typeError

/-- `SortTuple.__le__`: `self.__lt__(other) or self.__eq__(other)`.
Python `or` returns the first operand when it is truthy (`True` or
`NotImplemented`), else the second; a raised error propagates. -/
def SortTuple.lePy (s : SortTuple) (other : Operand) : CmpResult :=
  match s.ltPy other with
  | .bool true => .bool true
  | .bool false => s.eqPy other
  | .notImplemented => .notImplemented
  | .typeError => .typeError

/-- `SortTuple.__ge__`: `self.__gt__(other) or self.__eq__(other)`. -/
def SortTuple.gePy (s : SortTuple) (other : Operand) : CmpResult :=
  match s.gtPy other with
  | .bool true => .bool true
  | .bool false => s.eqPy other
  | .notImplemented => .notImplemented
  | .typeError => .typeError

/-- Python truthiness of a number (`if self.atEnd:`): zero is falsy,
every other value — including NaN and the infinities — is truthy. -/
def pyTruthy : PyNum → Bool
  | .fin q => q ≠ 0
  | _ => true

/-- Python `str` of a number, as far as this module exercises it:
integral values print without a fractional part, non-integral rationals
print Fraction-style as `num/den`, and the special values print as
`nan`, `inf`, `-inf`. -/
def pyStr : PyNum → String
  | .nan => "nan"
  | .ninf => "-inf"
  | .pinf => "inf"
  | .fin q => if q.den = 1 then toString q.num else toString q.num ++ "/" ++ toString q.den

/-- `SortTuple.shortRepr`: joins the parts the source pushes onto
`reprParts` — `'End'` when `atEnd` is truthy, else `str(offset)`; then
`' <'`, `str(priority)`, `'.'`, `str(classSortOrder)`, the literal
`'.[Grace]'` exactly when `isNotGrace == 0`, then `'.'`,
`str(insertIndex)` and `'>'`. -/
def SortTuple.shortRepr (s : SortTuple) : String :=
  String.join
    ((if pyTruthy s.atEnd then ["End"] else [pyStr s.offset]) ++
     [" <", pyStr s.priority, ".", pyStr s.classSortOrder] ++
     (if pyEq s.isNotGrace (.fin 0) then [".[Grace]"] else []) ++
     [".", pyStr s.insertIndex, ">"])

/-- The `_fields` attribute of the named tuple: the six recognized
field names, in declaration order. -/
def fieldNames : List String :=
  ["atEnd", "offset", "priority", "classSortOrder", "isNotGrace", "insertIndex"]

/-- `keywords.get(attr, default)`: the value bound to `attr` in the
keyword-argument dictionary, or `default` when `attr` is absent. The
dictionary is modelled as an association list. -/
def kwGet (kw : List (String × PyNum)) (attr : String) (dflt : PyNum) : PyNum :=
  match kw.lookup attr with
  | some v => v
  | none => dflt

/-- `SortTuple.modify`: for each of the six `_fields` names, take the
keyword value when one was passed, else the receiver's field, and build
a new `SortTuple`. Keyword names outside `_fields` are never looked at
by `keywords.get`, and the source raises no exception. -/
def SortTuple.modify (s : SortTuple) (kw : List (String × PyNum)) : SortTuple :=
  { atEnd := kwGet kw "atEnd" s.atEnd
    offset := kwGet kw "offset" s.offset
    priority := kwGet kw "priority" s.priority
    classSortOrder := kwGet kw "classSortOrder" s.classSortOrder
    isNotGrace := kwGet kw "isNotGrace" s.isNotGrace
    insertIndex := kwGet kw "insertIndex" s.insertIndex }

/-- `SortTuple.add`: per field, `max` for `atEnd` and `isNotGrace` and
`+` for the rest, building a new `SortTuple`. The source's
`isinstance` guard (raising `SortingException` for a foreign operand)
is enforced here by the operand's type. -/
def SortTuple.add (s o : SortTuple) : SortTuple :=
  { atEnd := pyMax s.atEnd o.atEnd
    offset := pyAdd s.offset o.offset
    priority := pyAdd s.priority o.priority
    classSortOrder := pyAdd s.classSortOrder o.classSortOrder
    isNotGrace := pyMax s.isNotGrace o.isNotGrace
    insertIndex := pyAdd s.insertIndex o.insertIndex }

/-- `SortTuple.sub`: per field, `min` for `atEnd` and `isNotGrace` and
`-` for the rest, building a new `SortTuple`; same `isinstance` guard
as `add`. -/
def SortTuple.sub (s o : SortTuple) : SortTuple :=
  { atEnd := pyMin s.atEnd o.atEnd
    offset := pySub s.offset o.offset
    priority := pySub s.priority o.priority
    classSortOrder := pySub s.classSortOrder o.classSortOrder
    isNotGrace := pyMin s.isNotGrace o.isNotGrace
    insertIndex := pySub s.insertIndex o.insertIndex }

/-- `ZeroSortTupleDefault` from the module footer. -/
def ZeroSortTupleDefault : SortTuple :=
  ⟨.fin 0, .fin 0, .fin 0, .fin 0, .fin 1, .fin 0⟩

/-- `ZeroSortTupleLow` from the module footer. -/
def ZeroSortTupleLow : SortTuple :=
  ⟨.fin 0, .fin 0, .ninf, .fin 0, .fin 1, .fin 0⟩

/-- `ZeroSortTupleHigh` from the module footer. -/
def ZeroSortTupleHigh : SortTuple :=
  ⟨.fin 0, .fin 0, .pinf, .fin 0, .fin 1, .fin 0⟩

/-! ### Order-theoretic facts about `pyEq` / `pyLt` -/

theorem pyEq_refl (x : PyNum) (h : x ≠ .nan) : pyEq x x = true := by
  cases x <;> simp_all [pyEq]

theorem pyEq_symm (x y : PyNum) : pyEq x y = pyEq y x := by
  cases x <;> cases y <;> simp [pyEq, eq_comm]

theorem pyEq_iff (x y : PyNum) (hx : x ≠ .nan) : pyEq x y = true ↔ x = y := by
  cases x <;> cases y <;> simp_all [pyEq]

theorem pyEq_trans (x y z : PyNum) (h1 : pyEq x y = true) (h2 : pyEq y z = true) :
    pyEq x z = true := by
  cases x <;> cases y <;> cases z <;> simp_all [pyEq]

theorem pyLt_of_eq_ne_nan (x y : PyNum) (h : pyEq x y = true) : pyLt x y = false := by
  cases x <;> cases y <;> simp_all [pyEq, pyLt]

theorem pyLt_asymm_py (x y : PyNum) (h : pyLt x y = true) : pyLt y x = false := by
  cases x <;> cases y <;> simp_all [pyLt]
  linarith

theorem pyLt_congr_left (x y z : PyNum) (h : pyEq x y = true) : pyLt y z = pyLt x z := by
  cases x <;> cases y <;> cases z <;> simp_all [pyEq, pyLt]

theorem pyLt_congr_right (x y z : PyNum) (h : pyEq y z = true) : pyLt x y = pyLt x z := by
  cases x <;> cases y <;> cases z <;> simp_all [pyEq, pyLt]

theorem pyLt_trans_py (x y z : PyNum) (h1 : pyLt x y = true) (h2 : pyLt y z = true) :
    pyLt x z = true := by
  cases x <;> cases y <;> cases z <;> simp_all [pyLt]
  linarith

theorem pyLt_total (x y : PyNum) (hx : x ≠ .nan) (hy : y ≠ .nan) :
    pyLt x y = true ∨ pyEq x y = true ∨ pyLt y x = true := by
  cases x <;> cases y <;> simp_all [pyEq, pyLt]
  exact lt_trichotomy _ _

/-! ### Order-theoretic facts about tuple comparison -/

theorem listPyGt_eq_swap (l1 l2 : List PyNum) : listPyGt l1 l2 = listPyLt l2 l1 := by
  induction l1 generalizing l2 with
  | nil => cases l2 <;> rfl
  | cons a as ih =>
    cases l2 with
    | nil => rfl
    | cons b bs =>
      simp only [listPyGt, listPyLt, pyGt, pyEq_symm a b]
      cases pyEq b a <;> simp [ih]

theorem listPyEq_symm_py (l1 l2 : List PyNum) : listPyEq l1 l2 = listPyEq l2 l1 := by
  induction l1 generalizing l2 with
  | nil => cases l2 <;> rfl
  | cons a as ih =>
    cases l2 with
    | nil => rfl
    | cons b bs => simp only [listPyEq, pyEq_symm a b, ih]

theorem listPyEq_iff (l1 l2 : List PyNum) (h1 : ∀ x ∈ l1, x ≠ .nan) :
    listPyEq l1 l2 = true ↔ l1 = l2 := by
  induction l1 generalizing l2 with
  | nil => cases l2 <;> simp [listPyEq]
  | cons a as ih =>
    cases l2 with
    | nil => simp [listPyEq]
    | cons b bs =>
      have ha : a ≠ .nan := h1 a (by simp)
      simp [listPyEq, Bool.and_eq_true, pyEq_iff a b ha,
        ih bs (fun x hx => h1 x (by simp [hx]))]

theorem listPyLt_cons_eq (a b : PyNum) (as bs : List PyNum) (h : pyEq a b = true) :
    listPyLt (a :: as) (b :: bs) = listPyLt as bs := by
  simp [listPyLt, h]

theorem listPyLt_cons_ne (a b : PyNum) (as bs : List PyNum) (h : pyEq a b = false) :
    listPyLt (a :: as) (b :: bs) = pyLt a b := by
  simp [listPyLt, h]

theorem listPyEq_cons (a b : PyNum) (as bs : List PyNum) :
    listPyEq (a :: as) (b :: bs) = (pyEq a b && listPyEq as bs) := rfl

theorem listPyLt_ne_of_lt (l1 l2 : List PyNum) (h : listPyLt l1 l2 = true) :
    listPyEq l1 l2 = false := by
  induction l1 generalizing l2 with
  | nil =>
    cases l2 with
    | nil => simp [listPyLt] at h
    | cons b bs => rfl
  | cons a as ih =>
    cases l2 with
    | nil => simp [listPyLt] at h
    | cons b bs =>
      cases he : pyEq a b with
      | true =>
        rw [listPyLt_cons_eq a b as bs he] at h
        simp [listPyEq_cons, he, ih bs h]
      | false => simp [listPyEq_cons, he]

theorem listPyLt_asymm (l1 l2 : List PyNum) (h : listPyLt l1 l2 = true) :
    listPyLt l2 l1 = false := by
  induction l1 generalizing l2 with
  | nil =>
    cases l2 with
    | nil => simp [listPyLt] at h
    | cons b bs => rfl
  | cons a as ih =>
    cases l2 with
    | nil => simp [listPyLt] at h
    | cons b bs =>
      cases he : pyEq a b with
      | true =>
        rw [listPyLt_cons_eq a b as bs he] at h
        rw [listPyLt_cons_eq b a bs as (by rw [pyEq_symm]; exact he)]
        exact ih bs h
      | false =>
        rw [listPyLt_cons_ne a b as bs he] at h
        rw [listPyLt_cons_ne b a bs as (by rw [pyEq_symm]; exact he)]
        exact pyLt_asymm_py a b h

theorem listPyLt_trans (l1 l2 l3 : List PyNum) (h1 : listPyLt l1 l2 = true)
    (h2 : listPyLt l2 l3 = true) : listPyLt l1 l3 = true := by
  induction l1 generalizing l2 l3 with
  | nil =>
    cases l2 with
    | nil => simp [listPyLt] at h1
    | cons b bs =>
      cases l3 with
      | nil => simp [listPyLt] at h2
      | cons c cs => rfl
  | cons a as ih =>
    cases l2 with
    | nil => simp [listPyLt] at h1
    | cons b bs =>
      cases l3 with
      | nil => simp [listPyLt] at h2
      | cons c cs =>
        cases hab : pyEq a b with
        | true =>
          rw [listPyLt_cons_eq a b as bs hab] at h1
          cases hbc : pyEq b c with
          | true =>
            rw [listPyLt_cons_eq b c bs cs hbc] at h2
            rw [listPyLt_cons_eq a c as cs (pyEq_trans a b c hab hbc)]
            exact ih bs cs h1 h2
          | false =>
            rw [listPyLt_cons_ne b c bs cs hbc] at h2
            have hac : pyEq a c = false := by
              cases hac : pyEq a c with
              | true =>
                have : pyEq b c = true :=
                  pyEq_trans b a c (by rw [pyEq_symm]; exact hab) hac
                rw [this] at hbc
                exact hbc
              | false => rfl
            rw [listPyLt_cons_ne a c as cs hac, ← pyLt_congr_left a b c hab]
            exact h2
        | false =>
          rw [listPyLt_cons_ne a b as bs hab] at h1
          cases hbc : pyEq b c with
          | true =>
            have hac : pyEq a c = false := by
              cases hac : pyEq a c with
              | true =>
                have : pyEq a b = true :=
                  pyEq_trans a c b hac (by rw [pyEq_symm]; exact hbc)
                rw [this] at hab
                exact hab
              | false => rfl
            rw [listPyLt_cons_ne a c as cs hac, ← pyLt_congr_right a b c hbc]
            exact h1
          | false =>
            rw [listPyLt_cons_ne b c bs cs hbc] at h2
            have hac : pyEq a c = false := by
              cases hac : pyEq a c with
              | true =>
                have hcb : pyLt c b = true := by
                  rw [pyLt_congr_left a c b hac]
                  exact h1
                have := pyLt_asymm_py b c h2
                rw [hcb] at this
                exact this
              | false => rfl
            rw [listPyLt_cons_ne a c as cs hac]
            exact pyLt_trans_py a b c h1 h2

theorem listPy_total (l1 l2 : List PyNum) (h1 : ∀ x ∈ l1, x ≠ .nan)
    (h2 : ∀ x ∈ l2, x ≠ .nan) :
    listPyLt l1 l2 = true ∨ listPyEq l1 l2 = true ∨ listPyLt l2 l1 = true := by
  induction l1 generalizing l2 with
  | nil =>
    cases l2 with
    | nil => right; left; rfl
    | cons b bs => left; rfl
  | cons a as ih =>
    cases l2 with
    | nil => right; right; rfl
    | cons b bs =>
      have ha : a ≠ .nan := h1 a (by simp)
      have hb : b ≠ .nan := h2 b (by simp)
      cases hab : pyEq a b with
      | true =>
        have hba : pyEq b a = true := by rw [pyEq_symm]; exact hab
        rw [listPyLt_cons_eq a b as bs hab, listPyLt_cons_eq b a bs as hba,
          listPyEq_cons, hab, Bool.true_and]
        exact ih bs (fun x hx => h1 x (by simp [hx])) (fun x hx => h2 x (by simp [hx]))
      | false =>
        have hba : pyEq b a = false := by rw [pyEq_symm]; exact hab
        rw [listPyLt_cons_ne a b as bs hab, listPyLt_cons_ne b a bs as hba,
          listPyEq_cons, hab, Bool.false_and]
        rcases pyLt_total a b ha hb with h | h | h
        · exact Or.inl h
        · rw [h] at hab
          exact absurd hab (by simp)
        · exact Or.inr (Or.inr h)

/-! ### Small helper lemmas -/

theorem pyEq_fin_iff (x : PyNum) (q : ℚ) : pyEq x (.fin q) = true ↔ x = .fin q := by
  cases x <;> simp [pyEq]

theorem pyEq_pinf_iff (x : PyNum) : pyEq x .pinf = true ↔ x = .pinf := by
  cases x <;> simp [pyEq]

theorem pyMax_choice (x y : PyNum) : pyMax x y = x ∨ pyMax x y = y := by
  simp only [pyMax]
  split
  · exact Or.inr rfl
  · exact Or.inl rfl

theorem pyMin_choice (x y : PyNum) : pyMin x y = x ∨ pyMin x y = y := by
  simp only [pyMin]
  split
  · exact Or.inr rfl
  · exact Or.inl rfl

theorem listPyLt_cons_lex (x y : PyNum) (xs ys : List PyNum) :
    listPyLt (x :: xs) (y :: ys) = (pyLt x y || (pyEq x y && listPyLt xs ys)) := by
  cases he : pyEq x y with
  | true => rw [listPyLt_cons_eq x y xs ys he, pyLt_of_eq_ne_nan x y he]; simp
  | false => rw [listPyLt_cons_ne x y xs ys he]; simp [he]

theorem lookup_eq_none_of_forall_ne (kw : List (String × PyNum)) (attr : String)
    (h : ∀ p ∈ kw, p.1 ≠ attr) : kw.lookup attr = none := by
  induction kw with
  | nil => rfl
  | cons p ps ih =>
    have hp : (attr == p.1) = false := beq_eq_false_iff_ne.mpr (Ne.symm (h p (by simp)))
    cases p with
    | mk k v =>
      simp only [List.lookup, hp]
      exact ih (fun q hq => h q (by simp [hq]))

/-! ### The claims -/

/-- Claim C1, counterexample: calling `modify` with the unrecognized
keyword name `banana` does not raise `SortingException` — it returns a
result, namely a `SortTuple` identical to the receiver, silently
ignoring the name. -/
theorem C1_counterexample_modify_unrecognized :
    "banana" ∉ fieldNames ∧
      ZeroSortTupleDefault.modify [("banana", PyNum.fin 5)] = ZeroSortTupleDefault :=
  ⟨by decide, rfl⟩

/-- Claim C1, amended: `modify` silently ignores unrecognized keyword
names — a call whose keyword set contains no recognized field name
returns a new `SortTuple` equal to the receiver, and no error is
signalled. -/
theorem C1_amended_modify_silently_ignores (s : SortTuple) (kw : List (String × PyNum))
    (h : ∀ p ∈ kw, p.1 ∉ fieldNames) : s.modify kw = s := by
  have hl : ∀ attr ∈ fieldNames, kw.lookup attr = none := fun attr hat =>
    lookup_eq_none_of_forall_ne kw attr (fun p hp heq => h p hp (heq ▸ hat))
  cases s with
  | mk a o p c g i =>
    simp [SortTuple.modify, kwGet,
      hl "atEnd" (by simp [fieldNames]), hl "offset" (by simp [fieldNames]),
      hl "priority" (by simp [fieldNames]), hl "classSortOrder" (by simp [fieldNames]),
      hl "isNotGrace" (by simp [fieldNames]), hl "insertIndex" (by simp [fieldNames])]

/-- Claim C1, witness for the amended statement at a concrete input. -/
theorem C1_amended_witness :
    ZeroSortTupleLow.modify [("spam", PyNum.fin 7)] = ZeroSortTupleLow :=
  C1_amended_modify_silently_ignores ZeroSortTupleLow [("spam", PyNum.fin 7)] (by decide)

/-- Claim C2, code bug: for a `SortTuple` with `atEnd = 0` and a string
or `None` operand, `__lt__` and `__gt__` evaluate `self.offset < other`
(resp. `>`), which raises `TypeError`; the `except ValueError` clause
does not catch it, so a hard error escapes instead of the
`NotImplemented` the code's own fallback clause was written to return.
`__eq__` likewise returns `False` rather than `NotImplemented`. -/
theorem C2_code_bug_scalar_comparison_raises :
    ZeroSortTupleDefault.ltPy (.sc (.str "hello")) = CmpResult.typeError ∧
      ZeroSortTupleDefault.gtPy (.sc .none) = CmpResult.typeError ∧
      ZeroSortTupleDefault.ltPy (.sc .none) = CmpResult.typeError ∧
      ZeroSortTupleDefault.eqPy (.sc (.str "hello")) = .bool false :=
  ⟨rfl, rfl, rfl, rfl⟩

/-- Claim C5: `add` and `sub` combine `offset`, `priority`,
`classSortOrder` and `insertIndex` by addition resp. subtraction, and
combine `atEnd` and `isNotGrace` by Python `max` resp. `min`; on finite
values those are the mathematical sum, difference, maximum and minimum.
Both operations build a fresh `SortTuple` and mutate neither operand. -/
theorem C5_add_sub_fields (a b : SortTuple) :
    (a.add b).offset = pyAdd a.offset b.offset ∧
      (a.add b).priority = pyAdd a.priority b.priority ∧
      (a.add b).classSortOrder = pyAdd a.classSortOrder b.classSortOrder ∧
      (a.add b).insertIndex = pyAdd a.insertIndex b.insertIndex ∧
      (a.add b).atEnd = pyMax a.atEnd b.atEnd ∧
      (a.add b).isNotGrace = pyMax a.isNotGrace b.isNotGrace ∧
      (a.sub b).offset = pySub a.offset b.offset ∧
      (a.sub b).priority = pySub a.priority b.priority ∧
      (a.sub b).classSortOrder = pySub a.classSortOrder b.classSortOrder ∧
      (a.sub b).insertIndex = pySub a.insertIndex b.insertIndex ∧
      (a.sub b).atEnd = pyMin a.atEnd b.atEnd ∧
      (a.sub b).isNotGrace = pyMin a.isNotGrace b.isNotGrace ∧
      (∀ p q : ℚ, pyAdd (.fin p) (.fin q) = .fin (p + q) ∧
        pySub (.fin p) (.fin q) = .fin (p - q) ∧
        pyMax (.fin p) (.fin q) = .fin (max p q) ∧
        pyMin (.fin p) (.fin q) = .fin (min p q)) := by
  refine ⟨rfl, rfl, rfl, rfl, rfl, rfl, rfl, rfl, rfl, rfl, rfl, rfl, fun p q => ⟨rfl, ?_, ?_, ?_⟩⟩
  · simp [pySub, pyNeg, pyAdd, sub_eq_add_neg]
  · by_cases h : p < q
    · simp [pyMax, pyGt, pyLt, h, max_eq_right h.le]
    · simp [pyMax, pyGt, pyLt, h, max_eq_left (le_of_not_lt h)]
  · by_cases h : q < p
    · simp [pyMin, pyLt, h, min_eq_right h.le]
    · simp [pyMin, pyLt, h, min_eq_left (le_of_not_lt h)]

/-- Claim C6: the derived comparisons are computed from the primitives —
whenever the primitive comparisons return booleans, `__ne__` is the
negation of `__eq__`, `__le__` is `__lt__` or `__eq__`, and `__ge__` is
`__gt__` or `__eq__`, for any operand (key, tuple or scalar). -/
theorem C6_derived_relations (s : SortTuple) (x : Operand) (e l g : Bool)
    (he : s.eqPy x = .bool e) (hl : s.ltPy x = .bool l) (hg : s.gtPy x = .bool g) :
    s.nePy x = .bool (!e) ∧ s.lePy x = .bool (l || e) ∧ s.gePy x = .bool (g || e) := by
  refine ⟨?_, ?_, ?_⟩
  · simp [SortTuple.nePy, he]
  · cases l with
    | true => simp [SortTuple.lePy, hl]
    | false => simp [SortTuple.lePy, hl, he]
  · cases g with
    | true => simp [SortTuple.gePy, hg]
    | false => simp [SortTuple.gePy, hg, he]

/-- Claim C6, witness at a concrete key and scalar operand. -/
theorem C6_derived_relations_witness :
    ZeroSortTupleDefault.lePy (.sc (.num (.fin 5))) = .bool (true || false) :=
  (C6_derived_relations ZeroSortTupleDefault (.sc (.num (.fin 5))) false true false
    rfl rfl rfl).2.1

/-- Claim C7: `modify` with recognized field overrides returns a new
`SortTuple` whose named fields carry the supplied values and whose other
fields are copied from the receiver (the receiver itself, being a value,
is untouched). Stated per field via the keyword lookup. -/
theorem C7_modify_overrides (a : SortTuple) (kw : List (String × PyNum)) :
    ((∀ v, kw.lookup "atEnd" = some v → (a.modify kw).atEnd = v) ∧
      (kw.lookup "atEnd" = none → (a.modify kw).atEnd = a.atEnd)) ∧
    ((∀ v, kw.lookup "offset" = some v → (a.modify kw).offset = v) ∧
      (kw.lookup "offset" = none → (a.modify kw).offset = a.offset)) ∧
    ((∀ v, kw.lookup "priority" = some v → (a.modify kw).priority = v) ∧
      (kw.lookup "priority" = none → (a.modify kw).priority = a.priority)) ∧
    ((∀ v, kw.lookup "classSortOrder" = some v → (a.modify kw).classSortOrder = v) ∧
      (kw.lookup "classSortOrder" = none → (a.modify kw).classSortOrder = a.classSortOrder)) ∧
    ((∀ v, kw.lookup "isNotGrace" = some v → (a.modify kw).isNotGrace = v) ∧
      (kw.lookup "isNotGrace" = none → (a.modify kw).isNotGrace = a.isNotGrace)) ∧
    ((∀ v, kw.lookup "insertIndex" = some v → (a.modify kw).insertIndex = v) ∧
      (kw.lookup "insertIndex" = none → (a.modify kw).insertIndex = a.insertIndex)) := by
  refine ⟨⟨?_, ?_⟩, ⟨?_, ?_⟩, ⟨?_, ?_⟩, ⟨?_, ?_⟩, ⟨?_, ?_⟩, ⟨?_, ?_⟩⟩ <;>
    first
      | (intro v h; simp [SortTuple.modify, kwGet, h])
      | (intro h; simp [SortTuple.modify, kwGet, h])

/-- Claim C7, witness: overriding `offset` on the default zero tuple
yields the new offset and leaves `atEnd` as the receiver's. -/
theorem C7_modify_overrides_witness :
    (ZeroSortTupleDefault.modify [("offset", PyNum.fin 2)]).offset = PyNum.fin 2 ∧
      (ZeroSortTupleDefault.modify [("offset", PyNum.fin 2)]).atEnd =
        ZeroSortTupleDefault.atEnd :=
  ⟨(C7_modify_overrides ZeroSortTupleDefault [("offset", PyNum.fin 2)]).2.1.1
      (PyNum.fin 2) rfl,
    (C7_modify_overrides ZeroSortTupleDefault [("offset", PyNum.fin 2)]).1.2 rfl⟩

/-- Claim C9: a tuple operand — a `SortTuple` or a plain tuple — takes
the inherited element-wise tuple comparison, never the scalar mode; in
particular a key equals the bare 6-tuple of its own field values
(provided no field is NaN, since NaN is not equal even to itself). -/
theorem C9_tuple_comparison (k : SortTuple) (l : List PyNum)
    (h : ∀ x ∈ k.toList, x ≠ PyNum.nan) :
    k.eqPy (.tup l) = .bool (listPyEq k.toList l) ∧
      k.ltPy (.tup l) = .bool (listPyLt k.toList l) ∧
      k.gtPy (.tup l) = .bool (listPyGt k.toList l) ∧
      k.eqPy (.tup [k.atEnd, k.offset, k.priority, k.classSortOrder,
        k.isNotGrace, k.insertIndex]) = .bool true := by
  refine ⟨rfl, rfl, rfl, ?_⟩
  have he : listPyEq k.toList k.toList = true := (listPyEq_iff _ _ h).mpr rfl
  show CmpResult.bool (listPyEq k.toList k.toList) = .bool true
  rw [he]

/-- Claim C9, witness at the default zero tuple. -/
theorem C9_tuple_comparison_witness :
    ZeroSortTupleDefault.eqPy (.tup [ZeroSortTupleDefault.atEnd, ZeroSortTupleDefault.offset,
      ZeroSortTupleDefault.priority, ZeroSortTupleDefault.classSortOrder,
      ZeroSortTupleDefault.isNotGrace, ZeroSortTupleDefault.insertIndex]) = .bool true :=
  (C9_tuple_comparison ZeroSortTupleDefault [] (by decide)).2.2.2

/-- Claim C10: when both operands have `atEnd` and `isNotGrace` in
`{0, 1}`, so do `add` and `sub` results — `max` and `min` each return
one of their two arguments. -/
theorem C10_flag_closure (a b : SortTuple)
    (ha1 : a.atEnd = PyNum.fin 0 ∨ a.atEnd = PyNum.fin 1)
    (ha2 : a.isNotGrace = PyNum.fin 0 ∨ a.isNotGrace = PyNum.fin 1)
    (hb1 : b.atEnd = PyNum.fin 0 ∨ b.atEnd = PyNum.fin 1)
    (hb2 : b.isNotGrace = PyNum.fin 0 ∨ b.isNotGrace = PyNum.fin 1) :
    ((a.add b).atEnd = PyNum.fin 0 ∨ (a.add b).atEnd = PyNum.fin 1) ∧
      ((a.add b).isNotGrace = PyNum.fin 0 ∨ (a.add b).isNotGrace = PyNum.fin 1) ∧
      ((a.sub b).atEnd = PyNum.fin 0 ∨ (a.sub b).atEnd = PyNum.fin 1) ∧
      ((a.sub b).isNotGrace = PyNum.fin 0 ∨ (a.sub b).isNotGrace = PyNum.fin 1) := by
  refine ⟨?_, ?_, ?_, ?_⟩
  · show pyMax a.atEnd b.atEnd = _ ∨ pyMax a.atEnd b.atEnd = _
    rcases pyMax_choice a.atEnd b.atEnd with h | h <;> rw [h] <;> tauto
  · show pyMax a.isNotGrace b.isNotGrace = _ ∨ pyMax a.isNotGrace b.isNotGrace = _
    rcases pyMax_choice a.isNotGrace b.isNotGrace with h | h <;> rw [h] <;> tauto
  · show pyMin a.atEnd b.atEnd = _ ∨ pyMin a.atEnd b.atEnd = _
    rcases pyMin_choice a.atEnd b.atEnd with h | h <;> rw [h] <;> tauto
  · show pyMin a.isNotGrace b.isNotGrace = _ ∨ pyMin a.isNotGrace b.isNotGrace = _
    rcases pyMin_choice a.isNotGrace b.isNotGrace with h | h <;> rw [h] <;> tauto

/-- Claim C10, witness at concrete flag values. -/
theorem C10_flag_closure_witness :
    ((ZeroSortTupleDefault.add ⟨.fin 1, .fin 0, .fin 0, .fin 0, .fin 0, .fin 0⟩).atEnd
        = PyNum.fin 0 ∨
      (ZeroSortTupleDefault.add ⟨.fin 1, .fin 0, .fin 0, .fin 0, .fin 0, .fin 0⟩).atEnd
        = PyNum.fin 1) :=
  (C10_flag_closure ZeroSortTupleDefault ⟨.fin 1, .fin 0, .fin 0, .fin 0, .fin 0, .fin 0⟩
    (Or.inl rfl) (Or.inr rfl) (Or.inr rfl) (Or.inl rfl)).1

/-- Claim C3: against a bare scalar, an `atEnd = 1` key is never less
than anything, equals exactly positive infinity, and is greater than
exactly the non-infinite scalars; an `atEnd = 0` key compares by its
`offset` alone, all other fields ignored. -/
theorem C3_scalar_comparison (k : SortTuple) (x : PyNum) :
    (k.atEnd = PyNum.fin 1 →
      k.ltPy (.sc (.num x)) = .bool false ∧
        (k.eqPy (.sc (.num x)) = .bool true ↔ x = PyNum.pinf) ∧
        (k.gtPy (.sc (.num x)) = .bool true ↔ x ≠ PyNum.pinf)) ∧
    (k.atEnd = PyNum.fin 0 →
      k.ltPy (.sc (.num x)) = .bool (pyLt k.offset x) ∧
        k.eqPy (.sc (.num x)) = .bool (pyEq k.offset x) ∧
        k.gtPy (.sc (.num x)) = .bool (pyGt k.offset x)) := by
  constructor
  · intro h
    have h1 : pyEq k.atEnd (.fin 1) = true := by rw [h]; simp [pyEq]
    refine ⟨by simp [SortTuple.ltPy, h1], ?_, ?_⟩
    · cases hx : pyEq x .pinf with
      | true =>
        have hxp : x = PyNum.pinf := (pyEq_pinf_iff x).mp hx
        subst hxp
        simp [SortTuple.eqPy, h1, scNeInf, hx]
      | false =>
        have hxp : x ≠ PyNum.pinf := fun he => by
          rw [he] at hx; simp [pyEq] at hx
        simp [SortTuple.eqPy, h1, scNeInf, hx, hxp]
    · cases hx : pyEq x .pinf with
      | true =>
        have hxp : x = PyNum.pinf := (pyEq_pinf_iff x).mp hx
        subst hxp
        simp [SortTuple.gtPy, h1, scNeInf, hx]
      | false =>
        have hxp : x ≠ PyNum.pinf := fun he => by
          rw [he] at hx; simp [pyEq] at hx
        simp [SortTuple.gtPy, h1, scNeInf, hx, hxp]
  · intro h
    have h1 : pyEq k.atEnd (.fin 1) = false := by rw [h]; simp [pyEq]
    exact ⟨by simp [SortTuple.ltPy, h1], by simp [SortTuple.eqPy, h1, scEqNum],
      by simp [SortTuple.gtPy, h1, scNeInf]⟩

/-- Claim C3, witness: an at-end key equals positive infinity. -/
theorem C3_scalar_comparison_witness :
    (SortTuple.mk (.fin 1) (.fin 0) (.fin 0) (.fin (-5)) (.fin 1) (.fin 3)).eqPy
      (.sc (.num .pinf)) = .bool true :=
  ((C3_scalar_comparison ⟨.fin 1, .fin 0, .fin 0, .fin (-5), .fin 1, .fin 3⟩
    PyNum.pinf).1 rfl).2.1.mpr rfl

/-- Claim C8: for boolean-valued `atEnd`, `shortRepr` renders `End`
when `atEnd = 1` and the offset otherwise, then ` <`, the priority, a
dot, the classSortOrder, the literal `.[Grace]` exactly when
`isNotGrace = 0`, then a dot, the insertIndex and `>`; on the concrete
key of the claim it yields `End <4.7.[Grace].200>`. -/
theorem C8_shortRepr_format (k : SortTuple)
    (h : k.atEnd = PyNum.fin 0 ∨ k.atEnd = PyNum.fin 1) :
    k.shortRepr =
      (if k.atEnd = PyNum.fin 1 then "End" else pyStr k.offset) ++ " <" ++
        pyStr k.priority ++ "." ++ pyStr k.classSortOrder ++
        (if k.isNotGrace = PyNum.fin 0 then ".[Grace]" else "") ++ "." ++
        pyStr k.insertIndex ++ ">" ∧
      (SortTuple.mk (.fin 1) (.fin 1) (.fin 4) (.fin 7) (.fin 0) (.fin 200)).shortRepr =
        "End <4.7.[Grace].200>" := by
  refine ⟨?_, rfl⟩
  have hgr : pyEq k.isNotGrace (.fin 0) = true ↔ k.isNotGrace = PyNum.fin 0 :=
    pyEq_fin_iff k.isNotGrace 0
  rcases h with h | h
  · have ht : pyTruthy k.atEnd = false := by rw [h]; simp [pyTruthy]
    have h1 : ¬(k.atEnd = PyNum.fin 1) := by rw [h]; simp
    by_cases hng : k.isNotGrace = PyNum.fin 0
    · have hg : pyEq k.isNotGrace (.fin 0) = true := hgr.mpr hng
      simp only [SortTuple.shortRepr, ht, hg]
      simp [h1, hng, String.join, String.append_assoc]
    · have hg : pyEq k.isNotGrace (.fin 0) = false := by
        cases hb : pyEq k.isNotGrace (.fin 0) with
        | true => exact absurd (hgr.mp hb) hng
        | false => rfl
      simp only [SortTuple.shortRepr, ht, hg]
      simp [h1, hng, String.join, String.append_assoc]
  · have ht : pyTruthy k.atEnd = true := by rw [h]; simp [pyTruthy]
    have h1 : k.atEnd = PyNum.fin 1 := h
    by_cases hng : k.isNotGrace = PyNum.fin 0
    · have hg : pyEq k.isNotGrace (.fin 0) = true := hgr.mpr hng
      simp only [SortTuple.shortRepr, ht, hg]
      simp [h1, hng, String.join, String.append_assoc]
    · have hg : pyEq k.isNotGrace (.fin 0) = false := by
        cases hb : pyEq k.isNotGrace (.fin 0) with
        | true => exact absurd (hgr.mp hb) hng
        | false => rfl
      simp only [SortTuple.shortRepr, ht, hg]
      simp [h1, hng, String.join, String.append_assoc]

/-- Claim C8, witness at a concrete non-end, non-grace key. -/
theorem C8_shortRepr_format_witness :
    ZeroSortTupleDefault.shortRepr =
      (if ZeroSortTupleDefault.atEnd = PyNum.fin 1 then "End"
        else pyStr ZeroSortTupleDefault.offset) ++ " <" ++
        pyStr ZeroSortTupleDefault.priority ++ "." ++
        pyStr ZeroSortTupleDefault.classSortOrder ++
        (if ZeroSortTupleDefault.isNotGrace = PyNum.fin 0 then ".[Grace]" else "") ++ "." ++
        pyStr ZeroSortTupleDefault.insertIndex ++ ">" :=
  (C8_shortRepr_format ZeroSortTupleDefault (Or.inl rfl)).1

/-- Claim C4: key-vs-key equality holds exactly when all six fields are
equal, less-than is lexicographic over the six fields in declared
order, and over NaN-free keys the comparisons form a strict total
order: exactly one of `a < b`, `a == b`, `a > b` holds, and less-than
is transitive. -/
theorem C4_total_order (a b c : SortTuple)
    (ha : ∀ x ∈ a.toList, x ≠ PyNum.nan) (hb : ∀ x ∈ b.toList, x ≠ PyNum.nan)
    (_hc : ∀ x ∈ c.toList, x ≠ PyNum.nan) :
    (a.eqPy (.st b) = .bool true ↔
      (a.atEnd = b.atEnd ∧ a.offset = b.offset ∧ a.priority = b.priority ∧
        a.classSortOrder = b.classSortOrder ∧ a.isNotGrace = b.isNotGrace ∧
        a.insertIndex = b.insertIndex)) ∧
    (a.ltPy (.st b) = .bool
      (pyLt a.atEnd b.atEnd || (pyEq a.atEnd b.atEnd &&
        (pyLt a.offset b.offset || (pyEq a.offset b.offset &&
          (pyLt a.priority b.priority || (pyEq a.priority b.priority &&
            (pyLt a.classSortOrder b.classSortOrder || (pyEq a.classSortOrder b.classSortOrder &&
              (pyLt a.isNotGrace b.isNotGrace || (pyEq a.isNotGrace b.isNotGrace &&
                pyLt a.insertIndex b.insertIndex))))))))))) ∧
    (a.ltPy (.st b) = .bool true ∨ a.eqPy (.st b) = .bool true ∨
      a.gtPy (.st b) = .bool true) ∧
    ¬(a.ltPy (.st b) = .bool true ∧ a.eqPy (.st b) = .bool true) ∧
    ¬(a.ltPy (.st b) = .bool true ∧ a.gtPy (.st b) = .bool true) ∧
    ¬(a.eqPy (.st b) = .bool true ∧ a.gtPy (.st b) = .bool true) ∧
    (a.ltPy (.st b) = .bool true → b.ltPy (.st c) = .bool true →
      a.ltPy (.st c) = .bool true) := by
  have hlist : ∀ s t : SortTuple, s.toList = t.toList ↔
      (s.atEnd = t.atEnd ∧ s.offset = t.offset ∧ s.priority = t.priority ∧
        s.classSortOrder = t.classSortOrder ∧ s.isNotGrace = t.isNotGrace ∧
        s.insertIndex = t.insertIndex) := by
    intro s t
    simp [SortTuple.toList, and_assoc]
  refine ⟨?_, ?_, ?_, ?_, ?_, ?_, ?_⟩
  · show CmpResult.bool (listPyEq a.toList b.toList) = .bool true ↔ _
    rw [← hlist]
    constructor
    · intro he
      exact (listPyEq_iff a.toList b.toList ha).mp (by injection he)
    · intro he
      rw [(listPyEq_iff a.toList b.toList ha).mpr he]
  · show CmpResult.bool (listPyLt a.toList b.toList) = _
    have hnil : listPyLt ([] : List PyNum) [] = false := rfl
    simp only [SortTuple.toList, listPyLt_cons_lex, hnil, Bool.and_false, Bool.or_false]
  · have := listPy_total a.toList b.toList ha hb
    rcases this with h | h | h
    · exact Or.inl (by show CmpResult.bool _ = _; rw [h])
    · exact Or.inr (Or.inl (by show CmpResult.bool _ = _; rw [h]))
    · refine Or.inr (Or.inr ?_)
      show CmpResult.bool (listPyGt a.toList b.toList) = _
      rw [listPyGt_eq_swap, h]
  · rintro ⟨h1, h2⟩
    have h1' : listPyLt a.toList b.toList = true := by injection h1
    have h2' : listPyEq a.toList b.toList = true := by injection h2
    rw [listPyLt_ne_of_lt a.toList b.toList h1'] at h2'
    exact Bool.false_ne_true h2'
  · rintro ⟨h1, h2⟩
    have h1' : listPyLt a.toList b.toList = true := by injection h1
    have h2' : listPyGt a.toList b.toList = true := by injection h2
    rw [listPyGt_eq_swap, listPyLt_asymm a.toList b.toList h1'] at h2'
    exact Bool.false_ne_true h2'
  · rintro ⟨h1, h2⟩
    have h1' : listPyEq a.toList b.toList = true := by injection h1
    have h2' : listPyGt a.toList b.toList = true := by injection h2
    rw [listPyGt_eq_swap] at h2'
    rw [listPyEq_symm_py] at h1'
    rw [listPyLt_ne_of_lt b.toList a.toList h2'] at h1'
    exact Bool.false_ne_true h1'
  · intro h1 h2
    have h1' : listPyLt a.toList b.toList = true := by injection h1
    have h2' : listPyLt b.toList c.toList = true := by injection h2
    show CmpResult.bool _ = _
    rw [listPyLt_trans a.toList b.toList c.toList h1' h2']

/-- Claim C4, witness: the three zero sentinel tuples are totally
ordered — the low one is below the default one. -/
theorem C4_total_order_witness :
    ZeroSortTupleLow.ltPy (.st ZeroSortTupleDefault) = .bool true ∨
      ZeroSortTupleLow.eqPy (.st ZeroSortTupleDefault) = .bool true ∨
      ZeroSortTupleLow.gtPy (.st ZeroSortTupleDefault) = .bool true :=
  (C4_total_order ZeroSortTupleLow ZeroSortTupleDefault ZeroSortTupleHigh
    (by decide) (by decide) (by decide)).2.2.1

end Sorting
